import Mathlib

/-!
# Potion Guard — verification of the analysis engine and API client

Shallow embedding of the Potion Guard repository (HackUTD 2025, EOG track).
The repository ships the Next.js frontend (`frontend/app/...`); the Flask
backend (`backend/app.py`, `backend/analysis/discrepancy_detector.py`) is
referenced by the READMEs but its source is not part of the snapshot, so the
analysis-engine components are modelled from the specification document and
marked as such in their doc comments.

Numeric volumes (liters) are embedded as rationals; timestamps are epoch
seconds embedded as integers, converted to minutes as rationals where the
algorithms divide by a duration.
-/

namespace PotionGuard

/-- A level reading for one vessel: epoch-second timestamp and level in liters. -/
structure LevelReading where
  timestamp : Int
  level : ℚ
deriving DecidableEq, Repr

/-- A drain event as produced by the Drain Event Detector (`true_volume`
is filled in later by the Volume Reconciler). -/
structure DrainEvent where
  vessel_id : Nat
  start_time : Int
  end_time : Int
  level_before : ℚ
  level_after : ℚ
deriving DecidableEq, Repr

/-- Drain duration in minutes: `(end_time − start_time)` epoch seconds / 60. -/
def DrainEvent.durationMinutes (e : DrainEvent) : ℚ :=
  ((e.end_time - e.start_time : Int) : ℚ) / 60

/-- Modelled from the spec: the Volume Reconciler of
`backend/analysis/discrepancy_detector.py` (not in the snapshot), §4.3:
`true_volume = (level_before − level_after) + r × drain_duration_minutes`,
with a negative estimated fill rate `r` clamped to zero before use. -/
def trueVolume (e : DrainEvent) (r : ℚ) : ℚ :=
  (e.level_before - e.level_after) + (max r 0) * e.durationMinutes

/-- A drain event together with its reconciled true volume. -/
structure FilledDrain where
  event : DrainEvent
  true_volume : ℚ
deriving DecidableEq, Repr

/-- Modelled from the spec: filling in `true_volume` on a detected drain
event using the vessel's estimated fill rate. -/
def fillTrueVolume (e : DrainEvent) (r : ℚ) : FilledDrain :=
  ⟨e, trueVolume e r⟩

/-- Classification of a discrepancy record, as rendered by
`frontend/app/components/DiscrepancyTable.tsx` and `frontend/app/page.tsx`:
`missing_volume > 0` shows THEFT, otherwise Leakage. -/
inductive DiscClass where
  | theft
  | leakage
deriving DecidableEq, Repr

/-- The frontend's classification rule (`item.missing_volume > 0 ? THEFT : Leakage`). -/
def classify (missing_volume : ℚ) : DiscClass :=
  if 0 < missing_volume then .theft else .leakage

/-- Modelled from the spec: `missing_volume = expected_volume − actual_volume`
(§3, computed by the backend's `match_tickets`, not in the snapshot). -/
def missingVolume (expected_volume actual_volume : ℚ) : ℚ :=
  expected_volume - actual_volume

/-- Modelled from the spec: the Overflow Forecaster's ETA (§4.5, backend
`/api/forecast`, not in the snapshot). `currentLevel` is `none` when no
reading exists at or before the query cutoff; otherwise
`eta_minutes = (max_volume − current_level) / r_fill` when `r_fill > 0` and
`current_level < max_volume`, and the sentinel `999` otherwise. -/
def etaMinutes (currentLevel : Option ℚ) (max_volume r_fill : ℚ) : ℚ :=
  match currentLevel with
  | none => 999
  | some c => if 0 < r_fill ∧ c < max_volume then (max_volume - c) / r_fill else 999

/-- Helper for the detector: the event closing a decreasing run that started
at reading `s` and ended at reading `c`. -/
def mkEvent (vid : Nat) (s c : LevelReading) : DrainEvent :=
  ⟨vid, s.timestamp, c.timestamp, s.level, c.level⟩

/-- Modelled from the spec: the Drain Event Detector's scan loop (§4.2,
backend `detect_all_drains_from_records`, not in the snapshot). `prev` is the
previous reading, `start` is the first reading of the drain currently in
progress (`none` when not inside a drain). Whenever the next level is below
the previous one a drain is in progress; it extends across consecutive
decreasing steps and closes at a non-decreasing step or at sequence end. -/
def detectGo (vid : Nat) (prev : LevelReading) (start : Option LevelReading) :
    List LevelReading → List DrainEvent
  | [] =>
    match start with
    | some s => [mkEvent vid s prev]
    | none => []
  | x :: xs =>
    if x.level < prev.level then
      detectGo vid x (some (start.getD prev)) xs
    else
      (match start with
       | some s => [mkEvent vid s prev]
       | none => []) ++ detectGo vid x none xs

/-- Modelled from the spec: the Drain Event Detector (§4.2) on a vessel's
sorted reading sequence. -/
def detectDrains (vid : Nat) : List LevelReading → List DrainEvent
  | [] => []
  | x :: xs => detectGo vid x none xs

/-- Modelled from the spec: split a sorted reading sequence into maximal
contiguous runs with non-decreasing level — the candidate "filling-only"
intervals of §4.1 (backend `calculate_fill_rates`, not in the snapshot). -/
def fillingRuns : List LevelReading → List (List LevelReading)
  | [] => []
  | [a] => [[a]]
  | a :: b :: rest =>
    match fillingRuns (b :: rest) with
    | [] => [[a]]
    | r :: rs => if a.level ≤ b.level then (a :: r) :: rs else [a] :: r :: rs

/-- Modelled from the spec: the rate of a filling-only interval (§4.1):
`(level_end − level_start) / duration_minutes` for runs with ≥2 points and
positive duration; runs with identical start/end timestamps are excluded. -/
def intervalRate (run : List LevelReading) : Option ℚ :=
  match run with
  | [] => none
  | a :: _ =>
    match run.getLast? with
    | none => none
    | some z =>
      if 2 ≤ run.length ∧ a.timestamp < z.timestamp then
        some ((z.level - a.level) / (((z.timestamp - a.timestamp : Int) : ℚ) / 60))
      else none

/-- All qualifying interval rates across a vessel's history (§4.1). -/
def intervalRates (rs : List LevelReading) : List ℚ :=
  (fillingRuns rs).filterMap intervalRate

/-- Median of a list of rationals (middle of the sorted list; average of the
two middle elements for even length; `0` for the empty list). -/
def median (l : List ℚ) : ℚ :=
  let s := l.insertionSort (· ≤ ·)
  if l.length = 0 then 0
  else if l.length % 2 = 1 then s.getD (l.length / 2) 0
  else (s.getD (l.length / 2 - 1) 0 + s.getD (l.length / 2) 0) / 2

/-- Arithmetic mean of a list of rationals (for contrast with `median`). -/
def listMean (l : List ℚ) : ℚ := l.sum / l.length

/-- Modelled from the spec: the Fill-Rate Estimator (§4.1, backend
`calculate_fill_rates`, not in the snapshot): the median of all qualifying
interval rates, `0` when no interval qualifies. -/
def estimateFillRate (rs : List LevelReading) : ℚ :=
  median (intervalRates rs)

/-- An official pickup ticket (§3): vessel, calendar day, reported volume. -/
structure Ticket where
  vessel_id : Nat
  date : Int
  reported_volume : ℚ
deriving DecidableEq, Repr

/-- A discrepancy record as consumed by the dashboard
(`frontend/app/page.tsx`, interface `Discrepancy`). -/
structure Discrepancy where
  date : Int
  cauldron_id : Nat
  expected_volume : ℚ
  actual_volume : ℚ
  missing_volume : ℚ
deriving DecidableEq, Repr

/-- `frontend/app/page.tsx` (`Home`): loss-incident count over the filtered
records: `filteredDiscrepancies.filter(d => d.missing_volume > 0).length`. -/
def totalLosses (l : List Discrepancy) : Nat :=
  (l.filter (fun d => decide (0 < d.missing_volume))).length

/-- `frontend/app/page.tsx` (`Home`): total lost volume:
`filteredDiscrepancies.filter(d => d.missing_volume > 0).reduce((sum, d) => sum + d.missing_volume, 0)`. -/
def totalLostVolume (l : List Discrepancy) : ℚ :=
  ((l.filter (fun d => decide (0 < d.missing_volume))).map (·.missing_volume)).sum

/-- Lexicographic order on `(date, vessel_id)` grouping keys: date ascending,
then vessel id — the output order required of the Discrepancy Matcher. -/
def keyLE (a b : Int × Nat) : Prop :=
  a.1 < b.1 ∨ (a.1 = b.1 ∧ a.2 ≤ b.2)

instance : DecidableRel keyLE := fun a b => by unfold keyLE; infer_instance

instance : IsTotal (Int × Nat) keyLE :=
  ⟨by intro a b; unfold keyLE; omega⟩

instance : IsTrans (Int × Nat) keyLE :=
  ⟨by intro a b c hab hbc; unfold keyLE at *; omega⟩

instance : IsAntisymm (Int × Nat) keyLE :=
  ⟨by
    intro a b hab hba
    unfold keyLE at *
    have h1 : a.1 = b.1 := by omega
    have h2 : a.2 = b.2 := by omega
    exact Prod.ext h1 h2⟩

/-- Grouping key of a reconciled drain event: `(date(start_time), vessel_id)`
with the epoch day of the start timestamp as the date (§4.4). -/
def drainKey (d : FilledDrain) : Int × Nat :=
  (d.event.start_time / 86400, d.event.vessel_id)

/-- Grouping key of a ticket: `(date, vessel_id)` (§4.4). -/
def ticketKey (t : Ticket) : Int × Nat :=
  (t.date, t.vessel_id)

/-- Modelled from the spec: union of the grouping keys of all drains and all
tickets (§4.4 — a day with drains but no ticket, or a ticket but no detected
drain, both matter), without duplicates. -/
def allKeys (ds : List FilledDrain) (ts : List Ticket) : List (Int × Nat) :=
  (ds.map drainKey ++ ts.map ticketKey).dedup

/-- The union of grouping keys, sorted by date ascending then vessel id. -/
def sortedKeys (ds : List FilledDrain) (ts : List Ticket) : List (Int × Nat) :=
  (allKeys ds ts).insertionSort keyLE

/-- Sum of ticket `reported_volume` for one grouping key (a missing group
defaults to `0` because the sum over the empty filter is `0`). -/
def expectedAt (k : Int × Nat) (ts : List Ticket) : ℚ :=
  ((ts.filter (fun t => decide (ticketKey t = k))).map (·.reported_volume)).sum

/-- Sum of drain `true_volume` for one grouping key. -/
def actualAt (k : Int × Nat) (ds : List FilledDrain) : ℚ :=
  ((ds.filter (fun d => decide (drainKey d = k))).map (·.true_volume)).sum

/-- Modelled from the spec: the Discrepancy Matcher (§4.4, backend
`match_tickets`, not in the snapshot): one record per `(date, vessel)` key in
the union of drain and ticket keys, volumes summed per key, output sorted by
date ascending then vessel id. -/
def matchTickets (ds : List FilledDrain) (ts : List Ticket) : List Discrepancy :=
  (sortedKeys ds ts).map fun k =>
    { date := k.1
      cauldron_id := k.2
      expected_volume := expectedAt k ts
      actual_volume := actualAt k ds
      missing_volume := expectedAt k ts - actualAt k ds }

/-- The `(date, vessel)` key of an output discrepancy record. -/
def recKey (r : Discrepancy) : Int × Nat :=
  (r.date, r.cauldron_id)

/-! ## API client (`frontend/app/lib/apiClient.ts`)

A `fetch` call either throws (network failure) or yields a response with an
`ok` flag and a parsed JSON payload. Each client function wraps its body in
`try`/`catch`: a non-OK response throws inside the body, and the `catch`
returns the empty list. -/

/-- The outcome of a `fetch` call: an exception, or a response with an HTTP
`ok` flag and a parsed payload. -/
inductive FetchOutcome (α : Type) where
  | thrown : FetchOutcome α
  | response (ok : Bool) (payload : α) : FetchOutcome α
deriving DecidableEq

/-- The `try`-block body shared by `getCauldrons`, `getDiscrepancies` and
`getHistoricalData`: throw on fetch failure or non-OK status, otherwise
return the parsed list. -/
def fetchListBody {α : Type} (f : FetchOutcome (List α)) : Except String (List α) :=
  match f with
  | .thrown => .error "fetch failed"
  | .response ok data => if ok then .ok data else .error "Failed to fetch"

/-- The `catch` handler of every API-client function: any error becomes the
empty list ("Return empty array on error so UI doesn't break"). -/
def catchToEmpty {α : Type} (r : Except String (List α)) : List α :=
  match r with
  | .ok l => l
  | .error _ => []

/-- A cauldron record as returned by `/api/cauldrons`. -/
structure Cauldron where
  id : Nat
  latitude : ℚ
  longitude : ℚ
  max_volume : Option ℚ
deriving DecidableEq

/-- A forecast record as returned by `/api/forecast`
(interface `ForecastData` in `OverflowForecast.tsx`). -/
structure ForecastRecord where
  cauldron_id : Nat
  current_level : ℚ
  max_volume : ℚ
  r_fill : ℚ
  eta_minutes : ℚ
deriving DecidableEq

/-- The `/drains` response payload: a JSON object whose `drains` field may be
absent (`data.drains || []`). -/
structure DrainsPayload where
  drains : Option (List DrainEvent)
deriving DecidableEq

/-- The `/api/forecast` response payload: a JSON object whose `forecast`
field may be absent (`data.forecast || []`). -/
structure ForecastPayload where
  forecast : Option (List ForecastRecord)
deriving DecidableEq

/-- `apiClient.ts` `getCauldrons`. -/
def getCauldrons (f : FetchOutcome (List Cauldron)) : List Cauldron :=
  catchToEmpty (fetchListBody f)

/-- `apiClient.ts` `getDiscrepancies`. -/
def getDiscrepancies (f : FetchOutcome (List Discrepancy)) : List Discrepancy :=
  catchToEmpty (fetchListBody f)

/-- `apiClient.ts` `getHistoricalData` (the fetched time-series list). -/
def getHistoricalData (f : FetchOutcome (List LevelReading)) : List LevelReading :=
  catchToEmpty (fetchListBody f)

/-- `apiClient.ts` `getDrains`: the `try`-block throws on failure or non-OK
status and otherwise returns `data.drains || []`; the `catch` returns `[]`. -/
def getDrains (f : FetchOutcome DrainsPayload) : List DrainEvent :=
  catchToEmpty
    (match f with
     | .thrown => .error "fetch failed"
     | .response ok data => if ok then .ok (data.drains.getD []) else .error "Failed to fetch")

/-- `apiClient.ts` `getForecast`: the `try`-block throws on failure or non-OK
status and otherwise returns `data.forecast || []`; the `catch` returns `[]`. -/
def getForecast (f : FetchOutcome ForecastPayload) : List ForecastRecord :=
  catchToEmpty
    (match f with
     | .thrown => .error "fetch failed"
     | .response ok data => if ok then .ok (data.forecast.getD []) else .error "Failed to fetch")

/-- `apiClient.ts` `getDrains` default query parameters: `startDate = 0`,
`endDate = 2000000000` (the far-future sentinel). An absent argument takes
the default. -/
def drainsQueryStart (s : Option Int) : Int := s.getD 0

/-- See `drainsQueryStart`: the `endDate` parameter with its default. -/
def drainsQueryEnd (e : Option Int) : Int := e.getD 2000000000

/-- Modelled from the spec: whether a drain event overlaps the query range
`[s, e]` (§6 drain listing; the server side of `/drains` is not in the
snapshot). -/
def overlapsRange (s e : Int) (d : DrainEvent) : Bool :=
  decide (d.start_time ≤ e ∧ s ≤ d.end_time)

/-- Modelled from the spec: the drain-listing operation returns the detected
DrainEvents overlapping the query range (§6). -/
def listDrains (events : List DrainEvent) (s e : Int) : List DrainEvent :=
  events.filter (overlapsRange s e)

/-- The drain listing as invoked by the client: optional epoch-second bounds
with `getDrains`'s defaults applied, then the overlap filter. -/
def listDrainsRequest (events : List DrainEvent) (s e : Option Int) : List DrainEvent :=
  listDrains events (drainsQueryStart s) (drainsQueryEnd e)

/-! ## Concrete test sequences -/

/-- The spec's synthetic detector test sequence with levels
`[100, 90, 80, 95]`, one reading per minute. -/
def syntheticReadings : List LevelReading :=
  [⟨0, 100⟩, ⟨60, 90⟩, ⟨120, 80⟩, ⟨180, 95⟩]

/-- A reading sequence with no decreasing step. -/
def flatReadings : List LevelReading :=
  [⟨0, 10⟩, ⟨60, 10⟩, ⟨120, 12⟩, ⟨180, 30⟩]

/-- A reading sequence with three filling-only intervals whose rates are
`1`, `2` and `50` L/min — the last a deliberately large outlier. -/
def outlierReadings : List LevelReading :=
  [⟨0, 0⟩, ⟨60, 1⟩, ⟨120, 0⟩, ⟨180, 0⟩, ⟨240, 4⟩, ⟨300, 0⟩, ⟨360, 0⟩, ⟨420, 100⟩]

/-- A one-drain snapshot for concrete matcher instances: vessel 1, day 0. -/
def witnessDrains : List FilledDrain := [⟨⟨1, 0, 60, 10, 5⟩, 5⟩]

/-- A one-ticket snapshot for concrete matcher instances: vessel 1, day 1 —
a different day from the drain, so each record misses one side. -/
def witnessTickets : List Ticket := [⟨1, 1, 6⟩]

/-! ## Theorems -/

/-- C1: For every DrainEvent and estimated fill rate `r`, the Volume
Reconciler computes `true_volume = (level_before − level_after) + r ×
drain_duration_minutes`, where a negative `r` is clamped to zero before use,
so the result is never negative on well-formed input (raw drop ≥ 0 and
r ≥ 0). -/
theorem c1_true_volume_formula (e : DrainEvent) (r : ℚ) :
    (0 ≤ r → trueVolume e r = (e.level_before - e.level_after) + r * e.durationMinutes) ∧
    (r < 0 → trueVolume e r = trueVolume e 0) ∧
    (e.level_after ≤ e.level_before → e.start_time ≤ e.end_time → 0 ≤ r →
      0 ≤ trueVolume e r) := by
  refine ⟨?_, ?_, ?_⟩
  · intro h
    unfold trueVolume
    rw [max_eq_left h]
  · intro h
    simp [trueVolume, max_eq_right h.le]
  · intro hdrop hdur _
    unfold trueVolume
    have h1 : 0 ≤ e.level_before - e.level_after := by linarith
    have h2 : 0 ≤ e.durationMinutes := by
      unfold DrainEvent.durationMinutes
      apply div_nonneg _ (by norm_num)
      have : (0 : Int) ≤ e.end_time - e.start_time := by omega
      exact_mod_cast this
    exact add_nonneg h1 (mul_nonneg (le_max_right r 0) h2)

/-- Closed instance of `c1_true_volume_formula` at a concrete drain event
and rate. -/
theorem c1_true_volume_formula_witness :
    trueVolume ⟨1, 0, 120, 100, 80⟩ (1/2) =
      ((100 : ℚ) - 80) + (1/2) * DrainEvent.durationMinutes ⟨1, 0, 120, 100, 80⟩ ∧
    trueVolume ⟨1, 0, 120, 100, 80⟩ (-3) = trueVolume ⟨1, 0, 120, 100, 80⟩ 0 ∧
    0 ≤ trueVolume ⟨1, 0, 120, 100, 80⟩ (1/2) :=
  ⟨(c1_true_volume_formula ⟨1, 0, 120, 100, 80⟩ (1/2)).1 (by norm_num),
   (c1_true_volume_formula ⟨1, 0, 120, 100, 80⟩ (-3)).2.1 (by norm_num),
   (c1_true_volume_formula ⟨1, 0, 120, 100, 80⟩ (1/2)).2.2 (by norm_num) (by decide) (by norm_num)⟩

/-- C2: For every DiscrepancyRecord, `missing_volume = expected_volume −
actual_volume`, the record is classified theft exactly when
`missing_volume > 0` and leakage exactly when `missing_volume ≤ 0`; in
particular `expected_volume=100, actual_volume=70` gives `missing_volume=30`
classified theft, and `expected_volume=70, actual_volume=100` gives
`missing_volume=-30` classified leakage. -/
theorem c2_classification (ev av : ℚ) :
    missingVolume ev av = ev - av ∧
    (classify (missingVolume ev av) = .theft ↔ 0 < missingVolume ev av) ∧
    (classify (missingVolume ev av) = .leakage ↔ missingVolume ev av ≤ 0) ∧
    missingVolume 100 70 = 30 ∧ classify (missingVolume 100 70) = .theft ∧
    missingVolume 70 100 = -30 ∧ classify (missingVolume 70 100) = .leakage := by
  refine ⟨rfl, ?_, ?_, by norm_num [missingVolume], by norm_num [classify, missingVolume],
    by norm_num [missingVolume], by norm_num [classify, missingVolume]⟩
  · unfold classify
    split <;> simp_all
  · unfold classify
    split <;> simp_all

/-- C3: For every vessel whose sorted reading history yields at least two
filling-only intervals of distinct positive rate, the Fill-Rate Estimator
returns the median of the per-interval rates
`(level_end − level_start) / duration_minutes`, not their mean; if zero
qualifying intervals exist it returns rate 0. The last two conjuncts
exhibit outlier resistance on a concrete history whose interval rates are
`[1, 2, 50]`: the estimate is the median `2`, not the mean `53/3`. -/
theorem c3_fill_rate_median (rs : List LevelReading) :
    (2 ≤ (intervalRates rs).length → estimateFillRate rs = median (intervalRates rs)) ∧
    (intervalRates rs = [] → estimateFillRate rs = 0) ∧
    intervalRates outlierReadings = [1, 2, 50] ∧
    estimateFillRate outlierReadings = 2 ∧
    listMean (intervalRates outlierReadings) = 53 / 3 ∧
    estimateFillRate outlierReadings ≠ listMean (intervalRates outlierReadings) := by
  have hrates : intervalRates outlierReadings = [1, 2, 50] := by
    norm_num [intervalRates, outlierReadings, fillingRuns, intervalRate, List.filterMap]
  have hmed : estimateFillRate outlierReadings = 2 := by
    rw [estimateFillRate, hrates]
    norm_num [median, List.insertionSort, List.orderedInsert]
  have hmean : listMean (intervalRates outlierReadings) = 53 / 3 := by
    rw [hrates]
    norm_num [listMean]
  refine ⟨fun _ => rfl, fun h => ?_, hrates, hmed, hmean, ?_⟩
  · rw [estimateFillRate, h]
    norm_num [median]
  · rw [hmed, hmean]
    norm_num

/-- Closed instance of `c3_fill_rate_median`: the median hypothesis holds on
the outlier history, and the empty history has zero qualifying intervals. -/
theorem c3_fill_rate_median_witness :
    estimateFillRate outlierReadings = median (intervalRates outlierReadings) ∧
    estimateFillRate [] = 0 :=
  ⟨(c3_fill_rate_median outlierReadings).1
      (by rw [(c3_fill_rate_median outlierReadings).2.2.1]; norm_num),
   (c3_fill_rate_median []).2.1 rfl⟩

/-- The detector emits no event on a history with no decreasing step. -/
theorem detectGo_eq_nil_of_mono (vid : Nat) :
    ∀ (rest : List LevelReading) (prev : LevelReading),
      List.Chain' (fun a b => a.level ≤ b.level) (prev :: rest) →
      detectGo vid prev none rest = [] := by
  intro rest
  induction rest with
  | nil => intro prev _; rfl
  | cons x xs ih =>
    intro prev hch
    rw [List.chain'_cons] at hch
    obtain ⟨hle, hch'⟩ := hch
    simp only [detectGo, if_neg (not_lt.mpr hle)]
    simpa using ih x hch'

/-- Every event emitted by the detector's scan loop starts no earlier than
the drain-in-progress start (or the previous reading when idle). -/
theorem detectGo_start_time_ge (vid : Nat) :
    ∀ (rest : List LevelReading) (prev : LevelReading) (start : Option LevelReading),
      List.Chain' (fun a b => a.timestamp < b.timestamp) (prev :: rest) →
      (∀ s, start = some s → s.timestamp ≤ prev.timestamp) →
      ∀ ev ∈ detectGo vid prev start rest,
        (start.getD prev).timestamp ≤ ev.start_time := by
  intro rest
  induction rest with
  | nil =>
    intro prev start _ hs ev hev
    cases start with
    | none => simp [detectGo] at hev
    | some s =>
      simp only [detectGo, List.mem_singleton] at hev
      subst hev
      simp [mkEvent]
  | cons x xs ih =>
    intro prev start hch hs ev hev
    rw [List.chain'_cons] at hch
    obtain ⟨hlt, hch'⟩ := hch
    by_cases hx : x.level < prev.level
    · simp only [detectGo, if_pos hx] at hev
      have hstep := ih x (some (start.getD prev)) hch' ?side ev hev
      · simpa using hstep
      · intro s hseq
        cases start with
        | none => simp at hseq; subst hseq; exact hlt.le
        | some s0 =>
          simp at hseq
          subst hseq
          exact (hs s0 rfl).trans hlt.le
    · simp only [detectGo, if_neg hx, List.mem_append] at hev
      rcases hev with hev | hev
      · cases start with
        | none => simp at hev
        | some s =>
          simp only [List.mem_singleton] at hev
          subst hev
          simp [mkEvent]
      · have hrec := ih x none hch' (by intro s h; cases h) ev hev
        simp only [Option.getD_none] at hrec
        calc (start.getD prev).timestamp ≤ prev.timestamp := by
              cases start with
              | none => simp
              | some s0 => simpa using hs s0 rfl
          _ ≤ x.timestamp := hlt.le
          _ ≤ ev.start_time := hrec

/-- On strictly increasing timestamps, the detector's scan loop emits
pairwise non-overlapping events in chronological order. -/
theorem detectGo_pairwise (vid : Nat) :
    ∀ (rest : List LevelReading) (prev : LevelReading) (start : Option LevelReading),
      List.Chain' (fun a b => a.timestamp < b.timestamp) (prev :: rest) →
      (∀ s, start = some s → s.timestamp ≤ prev.timestamp) →
      (detectGo vid prev start rest).Pairwise
        (fun e1 e2 => e1.end_time < e2.start_time) := by
  intro rest
  induction rest with
  | nil =>
    intro prev start _ _
    cases start <;> simp [detectGo]
  | cons x xs ih =>
    intro prev start hch hs
    rw [List.chain'_cons] at hch
    obtain ⟨hlt, hch'⟩ := hch
    by_cases hx : x.level < prev.level
    · simp only [detectGo, if_pos hx]
      apply ih x (some (start.getD prev)) hch'
      intro s hseq
      cases start with
      | none => simp at hseq; subst hseq; exact hlt.le
      | some s0 =>
        simp at hseq
        subst hseq
        exact (hs s0 rfl).trans hlt.le
    · simp only [detectGo, if_neg hx]
      rw [List.pairwise_append]
      refine ⟨?_, ih x none hch' (by intro s h; cases h), ?_⟩
      · cases start <;> simp
      · intro e1 he1 e2 he2
        cases start with
        | none => simp at he1
        | some s =>
          simp only [List.mem_singleton] at he1
          subst he1
          have := detectGo_start_time_ge vid xs x none hch' (by intro s h; cases h) e2 he2
          simp only [Option.getD_none] at this
          calc (mkEvent vid s prev).end_time = prev.timestamp := rfl
            _ < x.timestamp := hlt
            _ ≤ e2.start_time := this

/-- C4: For the reading sequence with levels `[100, 90, 80, 95]`, the Drain
Event Detector reports exactly one DrainEvent, spanning the two consecutive
decreasing steps, with `level_before = 100` and `level_after = 80`; a vessel
with no decreasing steps yields an empty event list rather than an error;
and on a history with strictly increasing timestamps the emitted events do
not overlap and are in chronological order (each event ends strictly before
the next one starts). -/
theorem c4_drain_detector (vid : Nat) (rs : List LevelReading) :
    detectDrains 0 syntheticReadings = [⟨0, 0, 120, 100, 80⟩] ∧
    (List.Chain' (fun a b => a.level ≤ b.level) rs → detectDrains vid rs = []) ∧
    (List.Chain' (fun a b => a.timestamp < b.timestamp) rs →
      (detectDrains vid rs).Pairwise (fun e1 e2 => e1.end_time < e2.start_time)) := by
  refine ⟨?_, ?_, ?_⟩
  · norm_num [detectDrains, syntheticReadings, detectGo, mkEvent]
  · intro hch
    cases rs with
    | nil => rfl
    | cons x xs => exact detectGo_eq_nil_of_mono vid xs x hch
  · intro hch
    cases rs with
    | nil => simp [detectDrains]
    | cons x xs => exact detectGo_pairwise vid xs x none hch (by intro s h; cases h)

/-- Closed instance of `c4_drain_detector`: the flat sequence yields no
event, and the synthetic sequence's single event list is pairwise ordered. -/
theorem c4_drain_detector_witness :
    detectDrains 3 flatReadings = [] ∧
    (detectDrains 0 syntheticReadings).Pairwise
      (fun e1 e2 => e1.end_time < e2.start_time) :=
  ⟨(c4_drain_detector 3 flatReadings).2.1
      (by norm_num [flatReadings, List.chain'_cons]),
   (c4_drain_detector 0 syntheticReadings).2.2
      (by norm_num [syntheticReadings, List.chain'_cons])⟩

/-- C5: For every forecast query, `eta_minutes = (max_volume −
current_level) / r_fill` exactly when `r_fill > 0` and `current_level <
max_volume`, and equals the sentinel 999 otherwise (no readings before the
cutoff, vessel already full, or non-positive rate), so division by a zero or
negative rate never occurs; for fixed `r_fill > 0`, `eta_minutes` strictly
decreases as `current_level` increases toward `max_volume`. -/
theorem c5_forecast_eta (mv r c c1 c2 : ℚ) :
    etaMinutes none mv r = 999 ∧
    (0 < r → c < mv → etaMinutes (some c) mv r = (mv - c) / r) ∧
    (¬(0 < r ∧ c < mv) → etaMinutes (some c) mv r = 999) ∧
    (0 < r → c1 < c2 → c2 < mv →
      etaMinutes (some c2) mv r < etaMinutes (some c1) mv r) := by
  refine ⟨rfl, ?_, ?_, ?_⟩
  · intro h1 h2
    simp [etaMinutes, h1, h2]
  · intro h
    simp only [etaMinutes, if_neg h]
  · intro hr h12 h2
    have h1 : c1 < mv := h12.trans h2
    have g2 : etaMinutes (some c2) mv r = (mv - c2) / r := by simp [etaMinutes, hr, h2]
    have g1 : etaMinutes (some c1) mv r = (mv - c1) / r := by simp [etaMinutes, hr, h1]
    rw [g2, g1]
    gcongr

/-- Closed instance of `c5_forecast_eta` at concrete levels and rate. -/
theorem c5_forecast_eta_witness :
    etaMinutes (some 50) 100 2 = ((100 : ℚ) - 50) / 2 ∧
    etaMinutes (some 120) 100 2 = 999 ∧
    etaMinutes (some 60) 100 2 < etaMinutes (some 50) 100 2 :=
  ⟨(c5_forecast_eta 100 2 50 0 0).2.1 (by norm_num) (by norm_num),
   (c5_forecast_eta 100 2 120 0 0).2.2.1 (by norm_num),
   (c5_forecast_eta 100 2 0 50 60).2.2.2 (by norm_num) (by norm_num) (by norm_num)⟩

/-- C6: The discrepancy computation is deterministic and idempotent: its
output (ordering and values) is a function of the snapshot's contents only —
permuting the drain or ticket collections (as hash-map iteration could)
leaves the output identical, and in particular two evaluations over the
identical snapshot agree. -/
theorem c6_match_deterministic (ds₁ ds₂ : List FilledDrain) (ts₁ ts₂ : List Ticket)
    (hd : List.Perm ds₁ ds₂) (ht : List.Perm ts₁ ts₂) :
    matchTickets ds₁ ts₁ = matchTickets ds₂ ts₂ := by
  have hkeys : sortedKeys ds₁ ts₁ = sortedKeys ds₂ ts₂ := by
    unfold sortedKeys
    refine List.eq_of_perm_of_sorted ?_ (List.sorted_insertionSort keyLE _)
      (List.sorted_insertionSort keyLE _)
    refine ((List.perm_insertionSort keyLE _).trans ?_).trans
      (List.perm_insertionSort keyLE _).symm
    exact ((hd.map drainKey).append (ht.map ticketKey)).dedup
  unfold matchTickets
  rw [hkeys]
  apply List.map_congr_left
  intro k _
  have he : expectedAt k ts₁ = expectedAt k ts₂ := by
    unfold expectedAt
    exact ((ht.filter (fun t => decide (ticketKey t = k))).map (·.reported_volume)).sum_eq
  have ha : actualAt k ds₁ = actualAt k ds₂ := by
    unfold actualAt
    exact ((hd.filter (fun d => decide (drainKey d = k))).map (·.true_volume)).sum_eq
  rw [he, ha]

/-- Closed instance of `c6_match_deterministic`: swapping two drains in the
snapshot leaves the computed discrepancies identical. -/
theorem c6_match_deterministic_witness :
    matchTickets [⟨⟨1, 0, 60, 10, 5⟩, 5⟩, ⟨⟨2, 86400, 86460, 20, 12⟩, 8⟩] [⟨1, 0, 6⟩] =
      matchTickets [⟨⟨2, 86400, 86460, 20, 12⟩, 8⟩, ⟨⟨1, 0, 60, 10, 5⟩, 5⟩] [⟨1, 0, 6⟩] :=
  c6_match_deterministic _ _ _ _
    (List.Perm.swap (⟨⟨2, 86400, 86460, 20, 12⟩, 8⟩ : FilledDrain)
      (⟨⟨1, 0, 60, 10, 5⟩, 5⟩ : FilledDrain) [])
    (List.Perm.refl _)

/-- Filtering a mapped list is mapping the filtered preimage. -/
theorem filter_of_map {α β : Type} (f : α → β) (p : β → Bool) :
    ∀ l : List α, (l.map f).filter p = (l.filter (fun x => p (f x))).map f := by
  intro l
  induction l with
  | nil => rfl
  | cons a l ih =>
    by_cases h : p (f a) <;> simp [List.filter_cons, h, ih]

/-- An indicator sum over a list not containing the distinguished key is 0. -/
theorem sum_map_ite_not_mem {c : ℚ} {x : Int × Nat} :
    ∀ (K : List (Int × Nat)), x ∉ K →
      (K.map (fun k => if x = k then c else 0)).sum = 0 := by
  intro K
  induction K with
  | nil => intro _; rfl
  | cons k K ih =>
    intro hx
    have hxk : x ≠ k := by
      intro h
      exact hx (h ▸ List.mem_cons_self k K)
    have hxK : x ∉ K := fun h => hx (List.mem_cons_of_mem k h)
    simp [if_neg hxk, ih hxK]

/-- An indicator sum over a filtered duplicate-free list containing the
distinguished key once picks out that key's contribution. -/
theorem sum_map_ite_mem {c : ℚ} {x : Int × Nat} (p : Int × Nat → Bool) :
    ∀ (K : List (Int × Nat)), K.Nodup → x ∈ K →
      ((K.filter p).map (fun k => if x = k then c else 0)).sum =
        if p x then c else 0 := by
  intro K
  induction K with
  | nil => intro _ h; cases h
  | cons k K ih =>
    intro hnd hx
    obtain ⟨hknotK, hndK⟩ := List.nodup_cons.mp hnd
    rcases List.mem_cons.mp hx with heq | hmem
    · subst heq
      have hrest : ((K.filter p).map (fun j => if x = j then c else 0)).sum = 0 := by
        apply sum_map_ite_not_mem
        intro hmem
        exact hknotK (List.mem_of_mem_filter hmem)
      by_cases hp : p x
      · simp [List.filter_cons, hp, hrest]
      · simp [List.filter_cons, hp, hrest]
    · have hxk : x ≠ k := fun h => hknotK (h ▸ hmem)
      by_cases hp : p k
      · simp [List.filter_cons, hp, if_neg hxk, ih hndK hmem]
      · simp [List.filter_cons, hp, ih hndK hmem]

/-- Peeling one drain off the per-key actual-volume sum. -/
theorem actualAt_cons (k : Int × Nat) (d : FilledDrain) (ds : List FilledDrain) :
    actualAt k (d :: ds) =
      (if drainKey d = k then d.true_volume else 0) + actualAt k ds := by
  unfold actualAt
  by_cases h : drainKey d = k
  · simp [List.filter_cons, h]
  · simp [List.filter_cons, h]

/-- Partition identity behind the round-trip property: summing the per-key
actual volumes over a vessel's keys (drawn from any duplicate-free key list
covering the drains) telescopes to the plain sum of the vessel's drain
volumes. -/
theorem actual_sum_partition (v : Nat) :
    ∀ (ds : List FilledDrain) (K : List (Int × Nat)), K.Nodup →
      (∀ d ∈ ds, drainKey d ∈ K) →
      ((K.filter (fun k => decide (k.2 = v))).map (fun k => actualAt k ds)).sum =
        ((ds.filter (fun d => decide (d.event.vessel_id = v))).map (·.true_volume)).sum := by
  intro ds
  induction ds with
  | nil =>
    intro K _ _
    have hz : ∀ k ∈ K.filter (fun k => decide (k.2 = v)),
        actualAt k ([] : List FilledDrain) = 0 := fun k _ => rfl
    rw [List.map_congr_left hz]
    simp
  | cons d ds ih =>
    intro K hnd hcov
    have hdK : drainKey d ∈ K := hcov d (List.mem_cons_self d ds)
    have hcov' : ∀ x ∈ ds, drainKey x ∈ K := fun x hx => hcov x (List.mem_cons_of_mem d hx)
    have hmapeq : (K.filter (fun k => decide (k.2 = v))).map (fun k => actualAt k (d :: ds)) =
        (K.filter (fun k => decide (k.2 = v))).map
          (fun k => (if drainKey d = k then d.true_volume else 0) + actualAt k ds) :=
      List.map_congr_left (fun k _ => actualAt_cons k d ds)
    rw [hmapeq, List.sum_map_add, sum_map_ite_mem _ K hnd hdK, ih K hnd hcov']
    by_cases hv : d.event.vessel_id = v
    · have hv2 : (drainKey d).2 = v := hv
      simp [List.filter_cons, hv, hv2]
    · have hv2 : ¬((drainKey d).2 = v) := hv
      simp [List.filter_cons, hv, hv2]

/-- The matcher's sorted key list has no duplicate keys. -/
theorem sortedKeys_nodup (ds : List FilledDrain) (ts : List Ticket) :
    (sortedKeys ds ts).Nodup :=
  (List.perm_insertionSort keyLE (allKeys ds ts)).nodup_iff.mpr (List.nodup_dedup _)

/-- A key appears in the matcher's key list exactly when some drain or some
ticket carries it. -/
theorem mem_sortedKeys {k : Int × Nat} {ds : List FilledDrain} {ts : List Ticket} :
    k ∈ sortedKeys ds ts ↔
      (∃ d ∈ ds, drainKey d = k) ∨ (∃ t ∈ ts, ticketKey t = k) := by
  unfold sortedKeys allKeys
  rw [(List.perm_insertionSort keyLE _).mem_iff, List.mem_dedup, List.mem_append]
  simp [List.mem_map]

/-- The keys of the matcher's output records are exactly its sorted keys. -/
theorem matchTickets_map_recKey (ds : List FilledDrain) (ts : List Ticket) :
    (matchTickets ds ts).map recKey = sortedKeys ds ts := by
  unfold matchTickets
  rw [List.map_map]
  exact List.map_id'' (fun k => rfl) _

/-- C7: The discrepancy computation produces one DiscrepancyRecord per
`(date, vessel)` pair that has at least one ticket or at least one drain
event that day (a missing side defaults its sum to 0), and the output
sequence is sorted by date ascending then vessel id; summing
`actual_volume` over all records for a vessel equals the sum of
`true_volume` over all of that vessel's DrainEvents. -/
theorem c7_discrepancy_shape (ds : List FilledDrain) (ts : List Ticket)
    (k : Int × Nat) (v : Nat) :
    ((matchTickets ds ts).map recKey).Nodup ∧
    (k ∈ (matchTickets ds ts).map recKey ↔
      (∃ d ∈ ds, drainKey d = k) ∨ (∃ t ∈ ts, ticketKey t = k)) ∧
    ((matchTickets ds ts).map recKey).Pairwise keyLE ∧
    (∀ r ∈ matchTickets ds ts,
      ((∀ t ∈ ts, ticketKey t ≠ recKey r) → r.expected_volume = 0) ∧
      ((∀ d ∈ ds, drainKey d ≠ recKey r) → r.actual_volume = 0)) ∧
    (((matchTickets ds ts).filter (fun r => decide (r.cauldron_id = v))).map
        (·.actual_volume)).sum =
      ((ds.filter (fun d => decide (d.event.vessel_id = v))).map (·.true_volume)).sum := by
  refine ⟨?_, ?_, ?_, ?_, ?_⟩
  · rw [matchTickets_map_recKey]
    exact sortedKeys_nodup ds ts
  · rw [matchTickets_map_recKey]
    exact mem_sortedKeys
  · rw [matchTickets_map_recKey]
    exact List.sorted_insertionSort keyLE (allKeys ds ts)
  · intro r hr
    unfold matchTickets at hr
    rw [List.mem_map] at hr
    obtain ⟨j, _, heq⟩ := hr
    subst heq
    constructor
    · intro hnone
      have hfil : ts.filter (fun t => decide (ticketKey t = j)) = [] := by
        rw [List.filter_eq_nil_iff]
        intro t ht
        simpa using hnone t ht
      unfold expectedAt
      rw [hfil]
      rfl
    · intro hnone
      have hfil : ds.filter (fun d => decide (drainKey d = j)) = [] := by
        rw [List.filter_eq_nil_iff]
        intro d hd
        simpa using hnone d hd
      unfold actualAt
      rw [hfil]
      rfl
  · unfold matchTickets
    rw [filter_of_map, List.map_map]
    exact actual_sum_partition v ds (sortedKeys ds ts) (sortedKeys_nodup ds ts)
      (fun d hd => mem_sortedKeys.mpr (Or.inl ⟨d, hd, rfl⟩))

/-- Closed instance of `c7_discrepancy_shape`: the round-trip sum on a
concrete snapshot with a drain on day 0 and a ticket on day 1 for the same
vessel, plus the defaulting of the missing ticket side to 0 on the drain's
record. -/
theorem c7_discrepancy_shape_witness :
    (((matchTickets witnessDrains witnessTickets).filter
        (fun r => decide (r.cauldron_id = 1))).map (·.actual_volume)).sum =
      ((witnessDrains.filter
        (fun d => decide (d.event.vessel_id = 1))).map (·.true_volume)).sum ∧
    expectedAt (0, 1) witnessTickets = 0 := by
  constructor
  · exact (c7_discrepancy_shape witnessDrains witnessTickets (0, 1) 1).2.2.2.2
  · have hk : ((0 : Int), (1 : Nat)) ∈ sortedKeys witnessDrains witnessTickets := by decide
    have hr := List.mem_map_of_mem
      (fun k : Int × Nat =>
        ({ date := k.1, cauldron_id := k.2,
           expected_volume := expectedAt k witnessTickets,
           actual_volume := actualAt k witnessDrains,
           missing_volume := expectedAt k witnessTickets - actualAt k witnessDrains } :
          Discrepancy)) hk
    exact ((c7_discrepancy_shape witnessDrains witnessTickets (0, 1) 1).2.2.2.1 _ hr).1
      (by decide)

/-- C8: The drain-listing operation takes `start_time` and `end_time` in
epoch seconds, with `start_time` defaulting to epoch 0 and `end_time`
defaulting to a far-future sentinel (2000000000), and returns the
DrainEvents overlapping that range. -/
theorem c8_drain_listing (events : List DrainEvent) (s e : Int) (d : DrainEvent) :
    drainsQueryStart none = 0 ∧
    drainsQueryEnd none = 2000000000 ∧
    listDrainsRequest events none none = listDrains events 0 2000000000 ∧
    (d ∈ listDrains events s e ↔
      d ∈ events ∧ d.start_time ≤ e ∧ s ≤ d.end_time) := by
  refine ⟨rfl, rfl, rfl, ?_⟩
  simp [listDrains, overlapsRange, List.mem_filter]

/-- C9: Every exported API-client function returns an empty list on any
fetch failure or non-OK HTTP status and never propagates an exception to
its caller; on success `getDrains` returns the payload's `drains` field and
`getForecast` its `forecast` field, each defaulting to an empty list when
absent. -/
theorem c9_api_client_error_handling
    (c : List Cauldron) (di : List Discrepancy) (hist : List LevelReading)
    (dp : DrainsPayload) (fp : ForecastPayload) :
    getCauldrons .thrown = [] ∧ getCauldrons (.response false c) = [] ∧
    getCauldrons (.response true c) = c ∧
    getDiscrepancies .thrown = [] ∧ getDiscrepancies (.response false di) = [] ∧
    getDiscrepancies (.response true di) = di ∧
    getHistoricalData .thrown = [] ∧ getHistoricalData (.response false hist) = [] ∧
    getHistoricalData (.response true hist) = hist ∧
    getDrains .thrown = [] ∧ getDrains (.response false dp) = [] ∧
    getDrains (.response true dp) = dp.drains.getD [] ∧
    getForecast .thrown = [] ∧ getForecast (.response false fp) = [] ∧
    getForecast (.response true fp) = fp.forecast.getD [] :=
  ⟨rfl, rfl, rfl, rfl, rfl, rfl, rfl, rfl, rfl, rfl, rfl, rfl, rfl, rfl, rfl⟩

/-- C10: The dashboard's loss statistics aggregate only theft-classified
records: the loss-incident count is the number of records with
`missing_volume > 0`, the total lost volume is the sum of `missing_volume`
over exactly those records, and records with `missing_volume ≤ 0` contribute
nothing to either statistic. -/
theorem c10_loss_stats (l : List Discrepancy) (d : Discrepancy) :
    totalLosses l = (l.filter (fun x => decide (0 < x.missing_volume))).length ∧
    totalLostVolume l =
      ((l.filter (fun x => decide (0 < x.missing_volume))).map (·.missing_volume)).sum ∧
    (d.missing_volume ≤ 0 →
      totalLosses (d :: l) = totalLosses l ∧
      totalLostVolume (d :: l) = totalLostVolume l) := by
  refine ⟨rfl, rfl, fun h => ?_⟩
  have hd : decide (0 < d.missing_volume) = false := by
    simp [not_lt.mpr h]
  constructor
  · simp [totalLosses, List.filter_cons, hd]
  · simp [totalLostVolume, List.filter_cons, hd]

/-- Closed instance of `c10_loss_stats`: a leakage record (missing ≤ 0)
leaves both statistics unchanged. -/
theorem c10_loss_stats_witness :
    totalLosses [⟨0, 1, 70, 100, -30⟩, ⟨0, 2, 100, 70, 30⟩] =
      totalLosses [⟨0, 2, 100, 70, 30⟩] ∧
    totalLostVolume [⟨0, 1, 70, 100, -30⟩, ⟨0, 2, 100, 70, 30⟩] =
      totalLostVolume [⟨0, 2, 100, 70, 30⟩] :=
  (c10_loss_stats [⟨0, 2, 100, 70, 30⟩] ⟨0, 1, 70, 100, -30⟩).2.2 (by norm_num)

end PotionGuard
